import Mathlib

/-!
Shallow embedding of `email_database.py` (class `EmailDatabase`): a SQLite-backed
email archive with tables `usuarios`, `categorias`, `emails`.

The database state is modelled as lists of rows.  The schema file
`database_schema.sql` is not part of the repository; the column set, the
defaults (`lido`/`importante`/`arquivado` default false, `data_envio` assigned
at insert time) and the foreign key `emails.categoria_id → categorias.id`
(enforced because the code sets `PRAGMA foreign_keys = ON`) are modelled from
the spec (sections 3 and 6).  Timestamps are natural numbers; `now` is passed
explicitly to the operations that read the clock.

Every mutating method wraps its work in the `_transaction` context manager,
which commits on success and rolls back and re-raises on any exception; this
is `runTransaction` below.  SQLite's `cursor.rowcount` for UPDATE/DELETE is
the number of rows matched by the WHERE clause (an UPDATE that rewrites a
value identical to the stored one still counts the row).
-/

/-- A row of the `usuarios` table. -/
structure Usuario where
  id : Nat
  nome : String
  email : String
  deriving Repr, DecidableEq

/-- A row of the `categorias` table. -/
structure Categoria where
  id : Nat
  nome : String
  descricao : String
  cor : String
  deriving Repr, DecidableEq

/-- A row of the `emails` table.  Per the spec, `lido`, `importante` and
`arquivado` default to false and `data_envio` is assigned by the store at
insert time. -/
structure Email where
  id : Nat
  remetente : String
  destinatario : String
  assunto : String
  corpo : String
  categoria_id : Option Nat
  data_envio : Nat
  lido : Bool
  importante : Bool
  arquivado : Bool
  deriving Repr, DecidableEq

/-- The contents of the database file: the three tables plus the next
auto-assigned rowid of each (SQLite rowids start at 1). -/
structure DBState where
  usuarios : List Usuario
  categorias : List Categoria
  emails : List Email
  nextUserId : Nat
  nextCatId : Nat
  nextEmailId : Nat
  deriving Repr, DecidableEq

def emptyDB : DBState :=
  { usuarios := [], categorias := [], emails := [],
    nextUserId := 1, nextCatId := 1, nextEmailId := 1 }

/-- Errors surfaced by the storage engine that the claims need: violation of
the `categoria_id` foreign key (PRAGMA foreign_keys = ON). -/
inductive DBError where
  | fkViolation
  deriving Repr, DecidableEq

/-- The `_transaction` context manager: run the body; on success commit the
new state, on an exception roll the state back and re-raise. -/
def runTransaction {α : Type} (body : DBState → Except DBError (DBState × α))
    (db : DBState) : DBState × Except DBError α :=
  match body db with
  | .ok (db2, v) => (db2, .ok v)
  | .error e => (db, .error e)

/-- Does an optional `categoria_id` satisfy the foreign key into
`categorias`? -/
def fkOk (db : DBState) (cid : Option Nat) : Bool :=
  match cid with
  | none => true
  | some c => db.categorias.any fun k => k.id == c

/-- `adicionar_usuario`: INSERT INTO usuarios, returning `lastrowid`. -/
def adicionar_usuario (db : DBState) (nome email : String) :
    DBState × Except DBError Nat :=
  runTransaction (fun db =>
    .ok ({ db with
            usuarios := db.usuarios ++
              [{ id := db.nextUserId, nome := nome, email := email }],
            nextUserId := db.nextUserId + 1 }, db.nextUserId)) db

/-- `adicionar_categoria`: INSERT INTO categorias, returning `lastrowid`. -/
def adicionar_categoria (db : DBState) (nome descricao cor : String) :
    DBState × Except DBError Nat :=
  runTransaction (fun db =>
    .ok ({ db with
            categorias := db.categorias ++
              [{ id := db.nextCatId, nome := nome, descricao := descricao,
                 cor := cor }],
            nextCatId := db.nextCatId + 1 }, db.nextCatId)) db

/-- `adicionar_email`: INSERT INTO emails, returning `lastrowid`.  The new row
gets the defaults (flags false) and `data_envio := now`; the insert fails with
a foreign-key violation when `categoria_id` names no existing category. -/
def adicionar_email (db : DBState) (remetente destinatario assunto corpo : String)
    (categoria_id : Option Nat) (now : Nat) : DBState × Except DBError Nat :=
  runTransaction (fun db =>
    if fkOk db categoria_id then
      .ok ({ db with
              emails := db.emails ++
                [{ id := db.nextEmailId, remetente := remetente,
                   destinatario := destinatario, assunto := assunto,
                   corpo := corpo, categoria_id := categoria_id,
                   data_envio := now, lido := false, importante := false,
                   arquivado := false }],
              nextEmailId := db.nextEmailId + 1 }, db.nextEmailId)
    else .error .fkViolation) db

/-- Stable insertion of an email into a list sorted by `data_envio`
descending: the inserted element goes in front of the first element whose
timestamp is not strictly greater. -/
def insTs (e : Email) : List Email → List Email
  | [] => [e]
  | y :: ys => if y.data_envio > e.data_envio then y :: insTs e ys else e :: y :: ys

/-- `ORDER BY e.data_envio DESC` as a stable sort. -/
def sortByTsDesc : List Email → List Email
  | [] => []
  | x :: xs => insTs x (sortByTsDesc xs)

/-- The `LEFT JOIN categorias c ON e.categoria_id = c.id` column
`c.nome AS categoria_nome` (NULL when the email has no category). -/
def categoria_nome (cats : List Categoria) (cid : Option Nat) : Option String :=
  cid.bind fun c => (cats.find? fun k => k.id == c).map fun k => k.nome

/-- A result row of the email queries: the email columns plus the joined
`categoria_nome`. -/
def joinRow (db : DBState) (e : Email) : Email × Option String :=
  (e, categoria_nome db.categorias e.categoria_id)

/-- The `destinatario` criterion of `buscar_emails`: `if destinatario:` is
Python truthiness, so both `None` and the empty string skip the predicate. -/
def matchDest : Option String → Email → Bool
  | none, _ => true
  | some d, e => if d = "" then true else e.destinatario == d

/-- The `categoria_id` criterion: `if categoria_id:` skips `None` and `0`. -/
def matchCat : Option Nat → Email → Bool
  | none, _ => true
  | some c, e => if c = 0 then true else e.categoria_id == some c

/-- The `lido` criterion: `if lido is not None:` only skips `None`. -/
def matchLido : Option Bool → Email → Bool
  | none, _ => true
  | some b, e => e.lido == b

/-- The WHERE clause assembled by `buscar_emails`: the conjunction of the
criteria Python truthiness lets through. -/
def passesFilter (destinatario : Option String) (categoria_id : Option Nat)
    (lido : Option Bool) (e : Email) : Bool :=
  matchDest destinatario e && matchCat categoria_id e && matchLido lido e

/-- `buscar_emails`: filter, order by `data_envio` descending, LIMIT, and
join the category name. -/
def buscar_emails (db : DBState) (destinatario : Option String)
    (categoria_id : Option Nat) (lido : Option Bool) (limit : Nat) :
    List (Email × Option String) :=
  ((sortByTsDesc (db.emails.filter (passesFilter destinatario categoria_id lido))).take
      limit).map (joinRow db)

/-- `marcar_como_lido`: UPDATE emails SET lido = 1 WHERE id = ?; returns
`rowcount > 0`. -/
def marcar_como_lido (db : DBState) (email_id : Nat) :
    DBState × Except DBError Bool :=
  runTransaction (fun db =>
    .ok ({ db with
            emails := db.emails.map fun e =>
              if e.id == email_id then { e with lido := true } else e },
         (db.emails.filter fun e => e.id == email_id).length != 0)) db

/-- `marcar_importante`: UPDATE emails SET importante = ? WHERE id = ?;
returns `rowcount > 0`. -/
def marcar_importante (db : DBState) (email_id : Nat) (importante : Bool) :
    DBState × Except DBError Bool :=
  runTransaction (fun db =>
    .ok ({ db with
            emails := db.emails.map fun e =>
              if e.id == email_id then { e with importante := importante } else e },
         (db.emails.filter fun e => e.id == email_id).length != 0)) db

/-- `arquivar_email`: UPDATE emails SET arquivado = 1 WHERE id = ?; returns
`rowcount > 0`. -/
def arquivar_email (db : DBState) (email_id : Nat) :
    DBState × Except DBError Bool :=
  runTransaction (fun db =>
    .ok ({ db with
            emails := db.emails.map fun e =>
              if e.id == email_id then { e with arquivado := true } else e },
         (db.emails.filter fun e => e.id == email_id).length != 0)) db

/-- `deletar_email`: DELETE FROM emails WHERE id = ?; returns `rowcount > 0`. -/
def deletar_email (db : DBState) (email_id : Nat) :
    DBState × Except DBError Bool :=
  runTransaction (fun db =>
    .ok ({ db with emails := db.emails.filter fun e => e.id != email_id },
         (db.emails.filter fun e => e.id == email_id).length != 0)) db

/-- `limpar_emails_antigos`: DELETE FROM emails WHERE
data_envio < datetime(now, -dias days); returns the number of rows deleted. -/
def limpar_emails_antigos (db : DBState) (dias : Nat) (now : Nat) :
    DBState × Except DBError Nat :=
  runTransaction (fun db =>
    .ok ({ db with
            emails := db.emails.filter fun e =>
              !(decide ((e.data_envio : Int) < (now : Int) - (dias : Int) * 86400)) },
         (db.emails.filter fun e =>
            decide ((e.data_envio : Int) < (now : Int) - (dias : Int) * 86400)).length)) db

/-- The aggregate returned by `obter_estatisticas`. -/
structure Stats where
  total_emails : Nat
  nao_lidos : Nat
  importantes : Nat
  por_categoria : List (String × Nat)
  deriving Repr, DecidableEq

/-- Stable insertion for `ORDER BY total DESC` on the per-category rows. -/
def insCnt (p : String × Nat) : List (String × Nat) → List (String × Nat)
  | [] => [p]
  | q :: qs => if q.2 > p.2 then q :: insCnt p qs else p :: q :: qs

/-- Sort the `(nome, total)` rows by count descending (stable). -/
def sortCntDesc : List (String × Nat) → List (String × Nat)
  | [] => []
  | x :: xs => insCnt x (sortCntDesc xs)

/-- Insert one key/value pair the way assignment into a Python dict does:
an existing key keeps its position and gets the new value, a fresh key is
appended at the end. -/
def dictInsert (k : String) (v : Nat) : List (String × Nat) → List (String × Nat)
  | [] => [(k, v)]
  | q :: qs => if q.1 = k then (k, v) :: qs else q :: dictInsert k v qs

/-- `dict(rows)` over a list of key/value pairs: later pairs with the same
key overwrite earlier ones. -/
def toDict (rows : List (String × Nat)) : List (String × Nat) :=
  rows.foldl (fun acc p => dictInsert p.1 p.2 acc) []

/-- `obter_estatisticas`: the four reads performed inside one transaction.
The per-category rows come from `LEFT JOIN emails … GROUP BY c.id, c.nome`
(one row per category, `COUNT(e.id)` counts the joined emails, zero included),
ordered by count descending, then collapsed into a Python dict keyed by the
category NAME. -/
def obter_estatisticas (db : DBState) : Stats :=
  { total_emails := db.emails.length,
    nao_lidos := (db.emails.filter fun e => !e.lido).length,
    importantes := (db.emails.filter fun e => e.importante).length,
    por_categoria :=
      toDict (sortCntDesc (db.categorias.map fun c =>
        (c.nome, (db.emails.filter fun e => e.categoria_id == some c.id).length))) }
/-- ASCII lower-casing, the case folding SQLite's default LIKE applies. -/
def lcChar (c : Char) : Char :=
  if 65 ≤ c.toNat ∧ c.toNat ≤ 90 then Char.ofNat (c.toNat + 32) else c

/-- Fuelled matcher for SQLite LIKE patterns: `%` matches any sequence,
`_` matches exactly one character, anything else matches one character up
to ASCII case.  Fuel `p.length + s.length + 1` always suffices. -/
def likeMF : Nat → List Char → List Char → Bool
  | 0, _, _ => false
  | _ + 1, [], s => s.isEmpty
  | f + 1, p :: ps, [] => if p = '%' then likeMF f ps [] else false
  | f + 1, p :: ps, c :: s =>
    if p = '%' then likeMF f ps (c :: s) || likeMF f (p :: ps) s
    else (if p = '_' then true else lcChar p == lcChar c) && likeMF f ps s

/-- SQLite `LIKE`: pattern on the left, string on the right. -/
def likeM (p s : List Char) : Bool := likeMF (p.length + s.length + 1) p s

/-- The pattern `f"%{texto}%"` built by `buscar_emails_por_texto` —
the caller's text is embedded without escaping. -/
def likePattern (texto : String) : List Char := '%' :: (texto.data ++ ['%'])

/-- `buscar_emails_por_texto`: WHERE assunto LIKE ? OR corpo LIKE ? with the
wildcard-bounded pattern, ordered newest first, LIMIT, joined category name. -/
def buscar_emails_por_texto (db : DBState) (texto : String) (limit : Nat) :
    List (Email × Option String) :=
  ((sortByTsDesc (db.emails.filter fun e =>
      likeM (likePattern texto) e.assunto.data ||
      likeM (likePattern texto) e.corpo.data)).take limit).map (joinRow db)

/-- Does `t` start with exactly the characters of `s`'s head? (plain list
prefix test, used to state literal-substring occurrence). -/
def leadMatch : List Char → List Char → Bool
  | [], _ => true
  | _ :: _, [] => false
  | a :: as, b :: bs => a == b && leadMatch as bs

/-- Literal (case-sensitive, metacharacter-free) substring occurrence of `t`
in `s` — the reading of "text occurs as a literal substring" in the spec. -/
def litOccurs (t : List Char) : List Char → Bool
  | [] => t.isEmpty
  | s@(_ :: s2) => leadMatch t s || litOccurs t s2

/-- `texto` contains none of the LIKE metacharacters. -/
def noMeta (t : List Char) : Bool := t.all fun c => !(c == '%') && !(c == '_')

/-- The connection-lifecycle state of an `EmailDatabase` object: the stored
path, the `_conn` field (`none` until a connection is opened) and whether the
schema script has been executed. -/
structure EmailDatabase where
  db_path : String
  conn : Option Unit
  schemaApplied : Bool
  deriving Repr, DecidableEq

/-- `_get_connection`: open a connection if `_conn` is `None`, else reuse it. -/
def get_connection (s : EmailDatabase) : EmailDatabase :=
  match s.conn with
  | none => { s with conn := some () }
  | some _ => s

/-- Modelled from the spec: `init_database` loads the external
`database_schema.sql` (not part of the repository) and runs it inside
`_transaction`, which obtains the connection via `_get_connection`; the script
only creates the tables. -/
def init_database (s : EmailDatabase) : EmailDatabase :=
  let s2 := get_connection s
  { s2 with schemaApplied := true }

/-- `EmailDatabase.__init__`: record the path, set `_conn = None`, then call
`init_database()`. -/
def EmailDatabase.init (db_path : String) : EmailDatabase :=
  init_database { db_path := db_path, conn := none, schemaApplied := false }

/-- `fechar_conexao`: close the connection if live; idempotent. -/
def fechar_conexao (s : EmailDatabase) : EmailDatabase := { s with conn := none }

/-- One mutating operation of the store, with its arguments. -/
inductive MutOp where
  | addUser (nome email : String)
  | addEmail (remetente destinatario assunto corpo : String) (categoria_id : Option Nat)
  | addCategory (nome descricao cor : String)
  | markRead (id : Nat)
  | markImportant (id : Nat) (importante : Bool)
  | archive (id : Nat)
  | deleteEmail (id : Nat)
  | purgeOlderThan (dias : Nat)
  deriving Repr, DecidableEq

/-- The scalar a mutating operation returns. -/
inductive OpResult where
  | rowid (n : Nat)
  | affected (b : Bool)
  | count (n : Nat)
  deriving Repr, DecidableEq

/-- Dispatch a mutating operation to the corresponding method. -/
def applyMut (op : MutOp) (now : Nat) (db : DBState) :
    DBState × Except DBError OpResult :=
  match op with
  | .addUser n e =>
    let p := adicionar_usuario db n e
    (p.1, p.2.map .rowid)
  | .addEmail r d a c cid =>
    let p := adicionar_email db r d a c cid now
    (p.1, p.2.map .rowid)
  | .addCategory n d c =>
    let p := adicionar_categoria db n d c
    (p.1, p.2.map .rowid)
  | .markRead i =>
    let p := marcar_como_lido db i
    (p.1, p.2.map .affected)
  | .markImportant i b =>
    let p := marcar_importante db i b
    (p.1, p.2.map .affected)
  | .archive i =>
    let p := arquivar_email db i
    (p.1, p.2.map .affected)
  | .deleteEmail i =>
    let p := deletar_email db i
    (p.1, p.2.map .affected)
  | .purgeOlderThan dias =>
    let p := limpar_emails_antigos db dias now
    (p.1, p.2.map .count)

/-! ### Concrete states used by witnesses and counterexamples -/

def exEmail1 : Email :=
  { id := 1, remetente := "a@x", destinatario := "a", assunto := "abc", corpo := "",
    categoria_id := none, data_envio := 10, lido := false, importante := false,
    arquivado := false }

def exDB1 : DBState := { emptyDB with emails := [exEmail1], nextEmailId := 2 }

def exEmailRead : Email :=
  { id := 1, remetente := "a@x", destinatario := "a", assunto := "abc", corpo := "",
    categoria_id := none, data_envio := 10, lido := true, importante := false,
    arquivado := false }

def exDBRead : DBState := { emptyDB with emails := [exEmailRead], nextEmailId := 2 }

/-! ### Generic lemmas about the embedding -/

lemma runTransaction_error {α : Type} (body : DBState → Except DBError (DBState × α))
    (db : DBState) (e : DBError) (h : (runTransaction body db).2 = .error e) :
    (runTransaction body db).1 = db := by
  unfold runTransaction at h ⊢
  cases hb : body db with
  | ok p =>
    obtain ⟨db2, v⟩ := p
    rw [hb] at h
    simp at h
  | error e2 =>
    rfl

lemma except_map_error {β γ : Type} (f : β → γ) (x : Except DBError β) (e : DBError)
    (h : x.map f = .error e) : x = .error e := by
  cases x with
  | ok b => simp [Except.map] at h
  | error e2 => cases e; cases e2; rfl

/-- C2: every mutating operation (AddUser, AddEmail, AddCategory, MarkRead,
MarkImportant, Archive, DeleteEmail, PurgeOlderThan) runs inside
`_transaction`; whenever the unit of work raises, the state is rolled back
before the exception propagates, so the store after a failed call equals the
store before it. -/
theorem mutations_rollback_on_error (op : MutOp) (now : Nat) (db : DBState)
    (e : DBError) (h : (applyMut op now db).2 = .error e) :
    (applyMut op now db).1 = db := by
  cases op <;>
    (simp only [applyMut] at h ⊢;
     exact runTransaction_error _ db e (except_map_error _ _ _ h))

/-- Witness for C2: inserting an email whose `categoria_id` names no category
fails with a foreign-key violation and leaves the empty store unchanged. -/
theorem mutations_rollback_on_error_witness :
    (applyMut (.addEmail "s" "r" "a" "" (some 5)) 0 emptyDB).2 = .error .fkViolation ∧
    (applyMut (.addEmail "s" "r" "a" "" (some 5)) 0 emptyDB).1 = emptyDB :=
  ⟨rfl, mutations_rollback_on_error (.addEmail "s" "r" "a" "" (some 5)) 0 emptyDB
    .fkViolation rfl⟩

lemma map_update_missing (l : List Email) (i : Nat) (f : Email → Email)
    (h : ∀ e ∈ l, e.id ≠ i) : (l.map fun e => if e.id == i then f e else e) = l := by
  induction l with
  | nil => rfl
  | cons x xs ih =>
    have hx : ¬((x.id == i) = true) := by simp [h x (List.mem_cons_self x xs)]
    simp only [List.map_cons, if_neg hx, List.cons.injEq, true_and]
    exact ih fun e he => h e (List.mem_cons_of_mem x he)

/-- C4: marking as read, marking important, archiving or deleting an email id
with no row in the store raises nothing: each call returns `false` (zero rows
affected) and leaves the state untouched. -/
theorem mutation_missing_id_noop (db : DBState) (i : Nat)
    (h : ∀ e ∈ db.emails, e.id ≠ i) :
    marcar_como_lido db i = (db, .ok false) ∧
    (∀ b, marcar_importante db i b = (db, .ok false)) ∧
    arquivar_email db i = (db, .ok false) ∧
    deletar_email db i = (db, .ok false) := by
  have hfil : db.emails.filter (fun e => e.id == i) = [] := by
    rw [List.filter_eq_nil_iff]
    intro e he
    simpa using h e he
  have hdel : db.emails.filter (fun e => e.id != i) = db.emails := by
    rw [List.filter_eq_self]
    intro e he
    simpa using h e he
  refine ⟨?_, fun b => ?_, ?_, ?_⟩
  · have h1 : (db.emails.map fun e =>
        if e.id == i then { e with lido := true } else e) = db.emails :=
      map_update_missing db.emails i _ h
    simp only [marcar_como_lido, runTransaction, h1, hfil, List.length_nil,
      bne_self_eq_false]
  · have h1 : (db.emails.map fun e =>
        if e.id == i then { e with importante := b } else e) = db.emails :=
      map_update_missing db.emails i _ h
    simp only [marcar_importante, runTransaction, h1, hfil, List.length_nil,
      bne_self_eq_false]
  · have h1 : (db.emails.map fun e =>
        if e.id == i then { e with arquivado := true } else e) = db.emails :=
      map_update_missing db.emails i _ h
    simp only [arquivar_email, runTransaction, h1, hfil, List.length_nil,
      bne_self_eq_false]
  · simp only [deletar_email, runTransaction, hdel, hfil, List.length_nil,
      bne_self_eq_false]

/-- Witness for C4: on a store holding only email id 1, the four operations
on id 2 return `false` and change nothing. -/
theorem mutation_missing_id_noop_witness :
    marcar_como_lido exDB1 2 = (exDB1, .ok false) ∧
    deletar_email exDB1 2 = (exDB1, .ok false) :=
  ⟨(mutation_missing_id_noop exDB1 2 (by decide)).1,
   (mutation_missing_id_noop exDB1 2 (by decide)).2.2.2⟩

/-- C10: when a row with the given id exists, `marcar_como_lido`,
`marcar_importante` and `arquivar_email` return `true` even if the flag
already holds the target value: SQLite's `rowcount` counts the rows matched
by the WHERE clause, not the rows whose stored value changed. -/
theorem marcar_existing_returns_true (db : DBState) (i : Nat) (b : Bool)
    (h : ∃ e ∈ db.emails, e.id = i) :
    (marcar_como_lido db i).2 = .ok true ∧
    (marcar_importante db i b).2 = .ok true ∧
    (arquivar_email db i).2 = .ok true := by
  obtain ⟨e0, he0, hid⟩ := h
  have hlen : (db.emails.filter fun e => e.id == i).length ≠ 0 := by
    intro hlen0
    have hnil : db.emails.filter (fun e => e.id == i) = [] :=
      List.length_eq_zero.mp hlen0
    have hmem : e0 ∈ db.emails.filter (fun e => e.id == i) :=
      List.mem_filter.mpr ⟨he0, by simp [hid]⟩
    rw [hnil] at hmem
    exact List.not_mem_nil e0 hmem
  have hb : ((db.emails.filter fun e => e.id == i).length != 0) = true :=
    bne_iff_ne.mpr hlen
  refine ⟨?_, ?_, ?_⟩ <;>
    simp [marcar_como_lido, marcar_importante, arquivar_email, runTransaction, hb]

/-- Witness for C10: marking an already-read email as read still returns
`true`. -/
theorem marcar_existing_returns_true_witness :
    (marcar_como_lido exDBRead 1).2 = .ok true :=
  (marcar_existing_returns_true exDBRead 1 true ⟨exEmailRead, by decide, rfl⟩).1

/-- Counterexample for C7: the claim says no live connection exists after
`EmailDatabase.__init__` returns, but `__init__` calls `init_database()`,
whose `_transaction` obtains a connection via `_get_connection`; the `_conn`
field is therefore already populated when construction finishes. -/
theorem init_opens_connection_cex :
    (EmailDatabase.init "emails.db").conn ≠ none := by
  decide

/-- C7 as amended: constructing the store records the path but also runs
`init_database()`, which opens (and keeps) the persistent connection and
executes the schema script; after construction a live connection exists. -/
theorem init_eager_connection (p : String) :
    (EmailDatabase.init p).conn = some () ∧
    (EmailDatabase.init p).db_path = p ∧
    (EmailDatabase.init p).schemaApplied = true :=
  ⟨rfl, rfl, rfl⟩

/-- C8: setting `importante` to true and then to false on an email id leaves
that row with `importante = false` and every other field of every row — the
`lido` and `arquivado` flags included — as it was, and touches no other table
of the store. -/
theorem marcar_importante_toggle_frame (db : DBState) (i : Nat) :
    ((marcar_importante (marcar_importante db i true).1 i false).1).emails =
      (db.emails.map fun e => if e.id == i then { e with importante := false } else e) ∧
    ((marcar_importante (marcar_importante db i true).1 i false).1).usuarios =
      db.usuarios ∧
    ((marcar_importante (marcar_importante db i true).1 i false).1).categorias =
      db.categorias ∧
    ((marcar_importante (marcar_importante db i true).1 i false).1).nextEmailId =
      db.nextEmailId := by
  refine ⟨?_, rfl, rfl, rfl⟩
  simp only [marcar_importante, runTransaction]
  rw [List.map_map]
  apply List.map_congr_left
  intro e _
  by_cases hc : (e.id == i) = true
  · simp [Function.comp, hc]
  · simp [Function.comp, hc]

/-- C9: `limpar_emails_antigos dias` deletes exactly the emails whose send
timestamp is strictly before `now - dias` days (86400 seconds each) and
returns the number of rows deleted; emails at or after the threshold, and the
other tables, are untouched.  With `dias = 0` the threshold is `now` itself. -/
theorem limpar_emails_antigos_spec (db : DBState) (dias now : Nat) :
    (limpar_emails_antigos db dias now).1.emails =
      (db.emails.filter fun e =>
        decide ((now : Int) - (dias : Int) * 86400 ≤ (e.data_envio : Int))) ∧
    (limpar_emails_antigos db dias now).2 =
      .ok (db.emails.filter fun e =>
        decide ((e.data_envio : Int) < (now : Int) - (dias : Int) * 86400)).length ∧
    (limpar_emails_antigos db dias now).1.usuarios = db.usuarios ∧
    (limpar_emails_antigos db dias now).1.categorias = db.categorias := by
  refine ⟨?_, rfl, rfl, rfl⟩
  simp only [limpar_emails_antigos, runTransaction]
  apply List.filter_congr
  intro e _
  rw [← decide_not]
  exact decide_eq_decide.mpr not_lt

/-! ### Sorting lemmas -/

lemma mem_insTs (a e : Email) (l : List Email) :
    a ∈ insTs e l ↔ a = e ∨ a ∈ l := by
  induction l with
  | nil => simp [insTs]
  | cons y ys ih =>
    simp only [insTs]
    by_cases hc : y.data_envio > e.data_envio
    · rw [if_pos hc]
      simp only [List.mem_cons, ih]
      tauto
    · rw [if_neg hc]
      simp only [List.mem_cons]

lemma mem_sortByTsDesc (a : Email) (l : List Email) :
    a ∈ sortByTsDesc l ↔ a ∈ l := by
  induction l with
  | nil => simp [sortByTsDesc]
  | cons x xs ih =>
    simp only [sortByTsDesc, mem_insTs, ih, List.mem_cons]

lemma length_insTs (e : Email) (l : List Email) :
    (insTs e l).length = l.length + 1 := by
  induction l with
  | nil => rfl
  | cons y ys ih =>
    simp only [insTs]
    by_cases hc : y.data_envio > e.data_envio
    · rw [if_pos hc]; simp [ih]
    · rw [if_neg hc]; simp

lemma length_sortByTsDesc (l : List Email) :
    (sortByTsDesc l).length = l.length := by
  induction l with
  | nil => rfl
  | cons x xs ih => simp [sortByTsDesc, length_insTs, ih]

lemma sortByTsDesc_snoc_max (l : List Email) (e : Email)
    (h : ∀ x ∈ l, x.data_envio < e.data_envio) :
    sortByTsDesc (l ++ [e]) = e :: sortByTsDesc l := by
  induction l with
  | nil => rfl
  | cons x xs ih =>
    have hx : e.data_envio > x.data_envio := h x (List.mem_cons_self x xs)
    have hxs : sortByTsDesc (xs ++ [e]) = e :: sortByTsDesc xs :=
      ih fun y hy => h y (List.mem_cons_of_mem x hy)
    simp only [List.cons_append, sortByTsDesc, List.append_eq, hxs, insTs, if_pos hx]

/-- C1: inserting a valid email (category reference satisfied) into a store
whose rows all carry send timestamps strictly before the call time, and then
querying by the same recipient, returns that email first: every field equals
the corresponding input, the three flags are false, and the send timestamp is
the call time itself (hence no earlier than it). -/
theorem adicionar_email_buscar_roundtrip (db : DBState)
    (r d a c : String) (cid : Option Nat) (now : Nat)
    (hfk : fkOk db cid = true)
    (hts : ∀ e ∈ db.emails, e.data_envio < now) :
    (adicionar_email db r d a c cid now).2 = .ok db.nextEmailId ∧
    (buscar_emails (adicionar_email db r d a c cid now).1 (some d) none none 50).head? =
      some ({ id := db.nextEmailId, remetente := r, destinatario := d, assunto := a,
              corpo := c, categoria_id := cid, data_envio := now, lido := false,
              importante := false, arquivado := false }, categoria_nome db.categorias cid) := by
  have hunfold : adicionar_email db r d a c cid now =
      ({ db with
          emails := db.emails ++
            [{ id := db.nextEmailId, remetente := r, destinatario := d, assunto := a,
               corpo := c, categoria_id := cid, data_envio := now, lido := false,
               importante := false, arquivado := false }],
          nextEmailId := db.nextEmailId + 1 }, .ok db.nextEmailId) := by
    simp only [adicionar_email, runTransaction, hfk, if_true]
  rw [hunfold]
  refine ⟨rfl, ?_⟩
  have hpass : passesFilter (some d) none none
      { id := db.nextEmailId, remetente := r, destinatario := d, assunto := a,
        corpo := c, categoria_id := cid, data_envio := now, lido := false,
        importante := false, arquivado := false } = true := by
    by_cases hd : d = "" <;>
      simp [passesFilter, matchDest, matchCat, matchLido, hd]
  unfold buscar_emails
  rw [List.filter_append]
  rw [show List.filter (passesFilter (some d) none none)
        [({ id := db.nextEmailId, remetente := r, destinatario := d, assunto := a,
            corpo := c, categoria_id := cid, data_envio := now, lido := false,
            importante := false, arquivado := false } : Email)] =
      [{ id := db.nextEmailId, remetente := r, destinatario := d, assunto := a,
         corpo := c, categoria_id := cid, data_envio := now, lido := false,
         importante := false, arquivado := false }] by simp [hpass]]
  rw [sortByTsDesc_snoc_max _ _ fun x hx => hts x (List.mem_of_mem_filter hx)]
  rfl

/-- Witness for C1 at a concrete input: adding an email to the empty store and
searching for its recipient yields the inserted record first. -/
theorem adicionar_email_buscar_roundtrip_witness :
    (buscar_emails (adicionar_email emptyDB "s@x" "r@x" "hi" "body" none 5).1
        (some "r@x") none none 50).head? =
      some ({ id := 1, remetente := "s@x", destinatario := "r@x", assunto := "hi",
              corpo := "body", categoria_id := none, data_envio := 5, lido := false,
              importante := false, arquivado := false }, none) :=
  (adicionar_email_buscar_roundtrip emptyDB "s@x" "r@x" "hi" "body" none 5 rfl
    (by decide)).2

/-- Counterexample for C3: the claim says `recipient=""` matches only emails
with an empty recipient, but `if destinatario:` treats the empty string as
falsy and skips the criterion entirely, so the query returns an email whose
recipient is `"a"`. -/
theorem buscar_empty_destinatario_cex :
    buscar_emails exDB1 (some "") none none 50 = [(exEmail1, none)] ∧
    exEmail1.destinatario ≠ "" := by
  constructor
  · rfl
  · decide

lemma matchDest_iff (d : Option String) (e : Email) :
    matchDest d e = true ↔ (d = none ∨ d = some "" ∨ d = some e.destinatario) := by
  cases d with
  | none => simp [matchDest]
  | some d0 =>
    by_cases hd : d0 = ""
    · simp [matchDest, hd]
    · simp only [matchDest, if_neg hd, beq_iff_eq]
      constructor
      · intro h2
        exact Or.inr (Or.inr (by rw [h2]))
      · rintro (h2 | h2 | h2)
        · exact absurd h2 (by simp)
        · exact absurd (Option.some.inj h2) hd
        · exact (Option.some.inj h2).symm

lemma matchCat_iff (c : Option Nat) (e : Email) :
    matchCat c e = true ↔ (c = none ∨ c = some 0 ∨ c = e.categoria_id) := by
  cases c with
  | none => simp [matchCat]
  | some c0 =>
    by_cases hc : c0 = 0
    · simp [matchCat, hc]
    · simp only [matchCat, if_neg hc, beq_iff_eq]
      constructor
      · intro h2
        exact Or.inr (Or.inr (by rw [h2]))
      · rintro (h2 | h2 | h2)
        · exact absurd h2 (by simp)
        · exact absurd (Option.some.inj h2) hc
        · exact h2.symm

lemma matchLido_iff (l : Option Bool) (e : Email) :
    matchLido l e = true ↔ (∀ b, l = some b → e.lido = b) := by
  cases l with
  | none => simp [matchLido]
  | some b => simp [matchLido]

lemma passesFilter_iff (d : Option String) (c : Option Nat) (l : Option Bool)
    (e : Email) :
    passesFilter d c l e = true ↔
      ((d = none ∨ d = some "" ∨ d = some e.destinatario) ∧
       (c = none ∨ c = some 0 ∨ c = e.categoria_id) ∧
       (∀ b, l = some b → e.lido = b)) := by
  simp only [passesFilter, Bool.and_eq_true, matchDest_iff, matchCat_iff,
    matchLido_iff, and_assoc]

/-- C3 as amended: a criterion constrains the result exactly when it is
non-null AND truthy — a non-empty recipient string and a non-zero categoryId
constrain equality on their fields, while `recipient=""` and `categoryId=0`
are dropped like null; the `read` flag constrains whenever non-null.  Subject
to the limit covering the whole table, a row is returned iff some email
satisfies the so-assembled conjunction. -/
theorem buscar_emails_filter_semantics (db : DBState) (d : Option String)
    (c : Option Nat) (l : Option Bool) (lim : Nat) (row : Email × Option String)
    (hlim : db.emails.length ≤ lim) :
    row ∈ buscar_emails db d c l lim ↔
      ∃ e, e ∈ db.emails ∧ row = joinRow db e ∧
        (d = none ∨ d = some "" ∨ d = some e.destinatario) ∧
        (c = none ∨ c = some 0 ∨ c = e.categoria_id) ∧
        (∀ b, l = some b → e.lido = b) := by
  unfold buscar_emails
  rw [List.take_of_length_le
    (by rw [length_sortByTsDesc]; exact le_trans (List.length_filter_le _ _) hlim)]
  simp only [List.mem_map]
  constructor
  · rintro ⟨e, he, rfl⟩
    rw [mem_sortByTsDesc] at he
    obtain ⟨hmem, hpass⟩ := List.mem_filter.mp he
    exact ⟨e, hmem, rfl, (passesFilter_iff d c l e).mp hpass⟩
  · rintro ⟨e, hmem, rfl, hconds⟩
    exact ⟨e, (mem_sortByTsDesc e _).mpr
      (List.mem_filter.mpr ⟨hmem, (passesFilter_iff d c l e).mpr hconds⟩), rfl⟩

/-- Witness for the amended C3: an email with recipient "a" is returned when
filtering by recipient "a" on a store small enough for the limit. -/
theorem buscar_emails_filter_semantics_witness :
    (exEmail1, (none : Option String)) ∈ buscar_emails exDB1 (some "a") none none 50 :=
  (buscar_emails_filter_semantics exDB1 (some "a") none none 50 (exEmail1, none)
      (by decide)).mpr
    ⟨exEmail1, by decide, rfl, Or.inr (Or.inr rfl), Or.inl rfl, by simp⟩

/-! ### Statistics lemmas -/

lemma length_filter_partition (p : Email → Bool) (l : List Email) :
    l.length = (l.filter fun e => !(p e)).length + (l.filter p).length := by
  induction l with
  | nil => rfl
  | cons x xs ih =>
    rw [List.length_cons, List.filter_cons, List.filter_cons]
    by_cases hx : p x = true
    · have h1 : ¬((!(p x)) = true) := by simp [hx]
      rw [if_neg h1, if_pos hx, List.length_cons]
      omega
    · have hx2 : p x = false := by simpa using hx
      have h1 : ((!(p x)) = true) := by simp [hx2]
      rw [if_pos h1, if_neg hx, List.length_cons]
      omega

lemma indicator_sum_zero (cats : List Categoria) (k : Nat)
    (h : ∀ c ∈ cats, c.id ≠ k) :
    (cats.map fun c => if (k == c.id : Bool) then 1 else 0).sum = 0 := by
  induction cats with
  | nil => rfl
  | cons c cs ih =>
    have hc : ¬((k == c.id) = true) := by
      simp only [beq_iff_eq]
      exact fun h2 => (h c (List.mem_cons_self c cs)) h2.symm
    simp only [List.map_cons, List.sum_cons, if_neg hc]
    rw [ih fun c2 hc2 => h c2 (List.mem_cons_of_mem c hc2)]

lemma indicator_sum_one (cats : List Categoria) (k : Nat)
    (hnd : (cats.map fun c => c.id).Nodup)
    (hmem : ∃ c ∈ cats, c.id = k) :
    (cats.map fun c => if (k == c.id : Bool) then 1 else 0).sum = 1 := by
  induction cats with
  | nil =>
    obtain ⟨c, hc, _⟩ := hmem
    exact absurd hc (List.not_mem_nil c)
  | cons c cs ih =>
    rw [List.map_cons] at hnd
    have hnd2 := List.nodup_cons.mp hnd
    by_cases hk : c.id = k
    · have hzero : (cs.map fun c2 => if (k == c2.id : Bool) then 1 else 0).sum = 0 := by
        apply indicator_sum_zero
        intro c2 hc2 h2
        exact hnd2.1 (List.mem_map.mpr ⟨c2, hc2, h2.trans hk.symm⟩)
      have hcond : (k == c.id) = true := beq_iff_eq.mpr hk.symm
      simp only [List.map_cons, List.sum_cons, if_pos hcond, hzero]
    · have hmem2 : ∃ c2 ∈ cs, c2.id = k := by
        obtain ⟨c2, hc2, hck⟩ := hmem
        rcases List.mem_cons.mp hc2 with rfl | hin
        · exact absurd hck hk
        · exact ⟨c2, hin, hck⟩
      have hc : ¬((k == c.id) = true) := by
        simp only [beq_iff_eq]
        exact fun h2 => hk h2.symm
      simp only [List.map_cons, List.sum_cons, if_neg hc]
      rw [ih hnd2.2 hmem2]

lemma sum_cat_counts (cats : List Categoria) (ems : List Email)
    (hnd : (cats.map fun c => c.id).Nodup)
    (hfk : ∀ e ∈ ems, ∀ k, e.categoria_id = some k → ∃ c ∈ cats, c.id = k) :
    (cats.map fun c => (ems.filter fun e => e.categoria_id == some c.id).length).sum
      = (ems.filter fun e => e.categoria_id != none).length := by
  induction ems with
  | nil => simp
  | cons e rest ih =>
    have hrest := ih fun e2 he2 k hk => hfk e2 (List.mem_cons_of_mem e he2) k hk
    have hsplit : ∀ c : Categoria,
        ((e :: rest).filter fun x => x.categoria_id == some c.id).length =
          (if (e.categoria_id == some c.id : Bool) then 1 else 0) +
            (rest.filter fun x => x.categoria_id == some c.id).length := by
      intro c
      rw [List.filter_cons]
      by_cases hx : (e.categoria_id == some c.id) = true
      · rw [if_pos hx, if_pos hx, List.length_cons]
        omega
      · rw [if_neg hx, if_neg hx]
        omega
    rw [List.map_congr_left fun c _ => hsplit c, List.sum_map_add]
    rw [hrest]
    rcases hcid : e.categoria_id with _ | k
    · have hz : (cats.map fun c =>
          if ((none : Option Nat) == some c.id : Bool) then 1 else 0).sum = 0 := by
        have hzz : ∀ c ∈ cats,
            (if ((none : Option Nat) == some c.id : Bool) then 1 else 0) = (0 : Nat) :=
          fun c _ => rfl
        rw [List.map_congr_left hzz]
        simp
      rw [hz, List.filter_cons]
      rw [show ((e.categoria_id != none) = false) from by rw [hcid]; rfl]
      simp
    · have ho : (cats.map fun c =>
          if ((some k : Option Nat) == some c.id : Bool) then 1 else 0).sum = 1 := by
        have heq : ∀ c ∈ cats,
            (if ((some k : Option Nat) == some c.id : Bool) then 1 else 0) =
              (if (k == c.id : Bool) then 1 else 0) :=
          fun c _ => rfl
        rw [List.map_congr_left heq]
        exact indicator_sum_one cats k hnd (hfk e (List.mem_cons_self e rest) k hcid)
      rw [ho, List.filter_cons]
      rw [show ((e.categoria_id != none) = true) from by rw [hcid]; rfl]
      rw [if_pos rfl, List.length_cons]
      omega

/-! ### Python-dict lemmas -/

lemma dictInsert_fresh (k : String) (v : Nat) (l : List (String × Nat))
    (h : ∀ q ∈ l, q.1 ≠ k) : dictInsert k v l = l ++ [(k, v)] := by
  induction l with
  | nil => rfl
  | cons q qs ih =>
    have hq : ¬(q.1 = k) := h q (List.mem_cons_self q qs)
    simp only [dictInsert, if_neg hq, List.cons_append, List.cons.injEq, true_and]
    exact ih fun q2 hq2 => h q2 (List.mem_cons_of_mem q hq2)

lemma foldl_dictInsert_nodup (l : List (String × Nat)) :
    ∀ acc : List (String × Nat), ((acc ++ l).map Prod.fst).Nodup →
      l.foldl (fun a p => dictInsert p.1 p.2 a) acc = acc ++ l := by
  induction l with
  | nil =>
    intro acc _
    simp
  | cons p rest ih =>
    intro acc h
    rw [List.foldl_cons]
    have hparts : (acc.map Prod.fst ++ (p.1 :: rest.map Prod.fst)).Nodup := by
      rw [← List.map_cons, ← List.map_append]
      exact h
    have hdisj := (List.nodup_append.mp hparts).2.2
    have hfresh : ∀ q ∈ acc, q.1 ≠ p.1 := by
      intro q hq heq
      exact hdisj (List.mem_map.mpr ⟨q, hq, rfl⟩) (by rw [heq]; exact List.mem_cons_self _ _)
    rw [dictInsert_fresh p.1 p.2 acc hfresh]
    have hassoc : (acc ++ [(p.1, p.2)]) ++ rest = acc ++ p :: rest := by
      rw [List.append_assoc, List.singleton_append]
    rw [ih (acc ++ [(p.1, p.2)]) (by rw [hassoc]; exact h), hassoc]

lemma toDict_of_nodup_keys (l : List (String × Nat))
    (h : (l.map Prod.fst).Nodup) : toDict l = l := by
  have := foldl_dictInsert_nodup l [] (by simpa using h)
  simpa [toDict] using this

lemma insCnt_perm (p : String × Nat) (l : List (String × Nat)) :
    List.Perm (insCnt p l) (p :: l) := by
  induction l with
  | nil => exact List.Perm.refl _
  | cons q qs ih =>
    simp only [insCnt]
    by_cases hc : q.2 > p.2
    · rw [if_pos hc]
      exact (ih.cons q).trans (List.Perm.swap p q qs)
    · rw [if_neg hc]

lemma sortCntDesc_perm (l : List (String × Nat)) :
    List.Perm (sortCntDesc l) l := by
  induction l with
  | nil => exact List.Perm.refl _
  | cons x xs ih =>
    simp only [sortCntDesc]
    exact (insCnt_perm x (sortCntDesc xs)).trans (ih.cons x)

def catX1 : Categoria := { id := 1, nome := "X", descricao := "", cor := "#007bff" }
def catX2 : Categoria := { id := 2, nome := "X", descricao := "", cor := "#007bff" }

def exEmailCat1 : Email :=
  { id := 1, remetente := "s", destinatario := "r", assunto := "a1", corpo := "",
    categoria_id := some 1, data_envio := 1, lido := false, importante := false,
    arquivado := false }

def exEmailCat2 : Email :=
  { id := 2, remetente := "s", destinatario := "r", assunto := "a2", corpo := "",
    categoria_id := some 2, data_envio := 2, lido := false, importante := false,
    arquivado := false }

/-- Two distinct categories that share the name "X", each referenced by one
email. -/
def exDBDupName : DBState :=
  { usuarios := [], categorias := [catX1, catX2],
    emails := [exEmailCat1, exEmailCat2],
    nextUserId := 1, nextCatId := 3, nextEmailId := 3 }

/-- Counterexample for C5: with two distinct category rows both named "X",
`dict(cursor.fetchall())` collapses the two GROUP BY rows onto one key, so
the per-category counts sum to 1 while two emails carry a non-null category
reference — the claimed equality fails. -/
theorem estatisticas_duplicate_name_cex :
    ((obter_estatisticas exDBDupName).por_categoria.map fun p => p.2).sum = 1 ∧
    (exDBDupName.emails.filter fun e => e.categoria_id != none).length = 2 := by
  constructor
  · rfl
  · rfl

/-- C5 as amended: PROVIDED the category names are pairwise distinct (and ids
unique, with every email's category reference resolving), the statistics are
consistent: the total equals unread plus read, the per-category counts sum to
the number of emails with a non-null category reference, and every category
with zero emails appears in the mapping with count 0.  With duplicate names
the name-keyed dict collapses rows and the count equations fail. -/
theorem estatisticas_consistency (db : DBState)
    (hnames : (db.categorias.map fun c => c.nome).Nodup)
    (hids : (db.categorias.map fun c => c.id).Nodup)
    (hfk : ∀ e ∈ db.emails, fkOk db e.categoria_id = true) :
    (obter_estatisticas db).total_emails =
      (obter_estatisticas db).nao_lidos + (db.emails.filter fun e => e.lido).length ∧
    ((obter_estatisticas db).por_categoria.map fun p => p.2).sum =
      (db.emails.filter fun e => e.categoria_id != none).length ∧
    (∀ c ∈ db.categorias,
      (db.emails.filter fun e => e.categoria_id == some c.id).length = 0 →
        (c.nome, 0) ∈ (obter_estatisticas db).por_categoria) := by
  have hfk2 : ∀ e ∈ db.emails, ∀ k, e.categoria_id = some k →
      ∃ c ∈ db.categorias, c.id = k := by
    intro e he k hk
    have hf := hfk e he
    rw [hk] at hf
    simp only [fkOk] at hf
    obtain ⟨c, hc, hck⟩ := List.any_eq_true.mp hf
    exact ⟨c, hc, by simpa using hck⟩
  have hkeys : ((db.categorias.map fun c =>
      (c.nome, (db.emails.filter fun e => e.categoria_id == some c.id).length)).map
        Prod.fst).Nodup := by
    rw [List.map_map]
    exact hnames
  have hperm := sortCntDesc_perm (db.categorias.map fun c =>
    (c.nome, (db.emails.filter fun e => e.categoria_id == some c.id).length))
  have hkeys2 : ((sortCntDesc (db.categorias.map fun c =>
      (c.nome, (db.emails.filter fun e => e.categoria_id == some c.id).length))).map
        Prod.fst).Nodup :=
    ((hperm.map Prod.fst).nodup_iff).mpr hkeys
  have hdict := toDict_of_nodup_keys _ hkeys2
  refine ⟨?_, ?_, ?_⟩
  · simp only [obter_estatisticas]
    exact length_filter_partition (fun e => e.lido) db.emails
  · simp only [obter_estatisticas]
    rw [hdict, (hperm.map fun p => p.2).sum_eq, List.map_map]
    exact sum_cat_counts db.categorias db.emails hids hfk2
  · intro c hc hcnt
    simp only [obter_estatisticas]
    rw [hdict]
    exact hperm.mem_iff.mpr (List.mem_map.mpr ⟨c, hc, by rw [hcnt]⟩)

def catWork : Categoria := { id := 1, nome := "Work", descricao := "", cor := "#007bff" }
def catPers : Categoria := { id := 2, nome := "Personal", descricao := "", cor := "#007bff" }

def exEmailW1 : Email :=
  { id := 1, remetente := "s", destinatario := "r", assunto := "w1", corpo := "",
    categoria_id := some 1, data_envio := 1, lido := false, importante := false,
    arquivado := false }

def exEmailW2 : Email :=
  { id := 2, remetente := "s", destinatario := "r", assunto := "w2", corpo := "",
    categoria_id := some 1, data_envio := 2, lido := true, importante := false,
    arquivado := false }

def exEmailU : Email :=
  { id := 3, remetente := "s", destinatario := "r", assunto := "u", corpo := "",
    categoria_id := none, data_envio := 3, lido := false, importante := false,
    arquivado := false }

def exDBStats : DBState :=
  { usuarios := [], categorias := [catWork, catPers],
    emails := [exEmailW1, exEmailW2, exEmailU],
    nextUserId := 1, nextCatId := 3, nextEmailId := 4 }

/-- Witness for the amended C5 on the spec's own scenario: two categories,
two tagged emails, one untagged; the counts sum to 2 and the zero-count
category "Personal" appears with count 0. -/
theorem estatisticas_consistency_witness :
    ((obter_estatisticas exDBStats).por_categoria.map fun p => p.2).sum =
      (exDBStats.emails.filter fun e => e.categoria_id != none).length ∧
    ("Personal", 0) ∈ (obter_estatisticas exDBStats).por_categoria :=
  ⟨(estatisticas_consistency exDBStats (by decide) (by decide) (by decide)).2.1,
   (estatisticas_consistency exDBStats (by decide) (by decide) (by decide)).2.2
     catPers (by decide) (by decide)⟩

/-! ### LIKE-pattern lemmas -/

lemma likeMF_congr : ∀ f g : Nat, ∀ p s : List Char,
    p.length + s.length < f → p.length + s.length < g →
    likeMF f p s = likeMF g p s := by
  intro f
  induction f with
  | zero =>
    intro g p s hf _
    omega
  | succ f ih =>
    intro g p s hf hg
    cases g with
    | zero => omega
    | succ g =>
      cases p with
      | nil => rfl
      | cons p ps =>
        cases s with
        | nil =>
          simp only [List.length_cons, List.length_nil] at hf hg
          simp only [likeMF]
          split
          · exact ih g ps [] (by simp only [List.length_nil]; omega)
              (by simp only [List.length_nil]; omega)
          · rfl
        | cons c s =>
          simp only [List.length_cons] at hf hg
          simp only [likeMF]
          split
          · rw [ih g ps (c :: s) (by simp only [List.length_cons]; omega)
                (by simp only [List.length_cons]; omega),
              ih g (p :: ps) s (by simp only [List.length_cons]; omega)
                (by simp only [List.length_cons]; omega)]
          · rw [ih g ps s (by omega) (by omega)]

lemma likeM_eq_likeMF (f : Nat) (p s : List Char) (h : p.length + s.length < f) :
    likeM p s = likeMF f p s :=
  likeMF_congr (p.length + s.length + 1) f p s (by omega) h

lemma likeM_nil (s : List Char) : likeM [] s = s.isEmpty := by
  cases s <;> rfl

lemma likeM_cons_nil (p : Char) (ps : List Char) :
    likeM (p :: ps) [] = if p = '%' then likeM ps [] else false := by
  have h1 : likeM (p :: ps) [] =
      likeMF ((ps.length + 1 + 0) + 1) (p :: ps) [] := rfl
  rw [h1, likeMF]
  split
  · rw [← likeM_eq_likeMF (ps.length + 1 + 0) ps []
      (by simp only [List.length_nil]; omega)]
  · rfl

lemma likeM_cons_cons (p c : Char) (ps s : List Char) :
    likeM (p :: ps) (c :: s) =
      if p = '%' then likeM ps (c :: s) || likeM (p :: ps) s
      else (if p = '_' then true else lcChar p == lcChar c) && likeM ps s := by
  have h1 : likeM (p :: ps) (c :: s) =
      likeMF ((ps.length + 1 + (s.length + 1)) + 1) (p :: ps) (c :: s) := rfl
  rw [h1, likeMF]
  split
  · rw [← likeM_eq_likeMF (ps.length + 1 + (s.length + 1)) ps (c :: s)
        (by simp only [List.length_cons]; omega),
      ← likeM_eq_likeMF (ps.length + 1 + (s.length + 1)) (p :: ps) s
        (by simp only [List.length_cons]; omega)]
  · rw [← likeM_eq_likeMF (ps.length + 1 + (s.length + 1)) ps s (by omega)]

lemma likeM_pct_any (s : List Char) : likeM ['%'] s = true := by
  induction s with
  | nil => rfl
  | cons c s ih =>
    rw [likeM_cons_cons, if_pos rfl, likeM_nil, ih]
    rfl

lemma leadMatch_nil (t : List Char) : leadMatch t [] = t.isEmpty := by
  cases t <;> rfl

lemma noMeta_cons (a : Char) (t : List Char) (h : noMeta (a :: t) = true) :
    a ≠ '%' ∧ a ≠ '_' ∧ noMeta t = true := by
  simp only [noMeta, List.all_cons, Bool.and_eq_true, Bool.not_eq_true',
    beq_eq_false_iff_ne] at h
  exact ⟨h.1.1, h.1.2, h.2⟩

lemma likeM_append_pct (t : List Char) (h : noMeta t = true) :
    ∀ s : List Char, likeM (t ++ ['%']) s = leadMatch (t.map lcChar) (s.map lcChar) := by
  induction t with
  | nil =>
    intro s
    rw [List.nil_append, List.map_nil, likeM_pct_any]
    rfl
  | cons a t ih =>
    obtain ⟨ha1, ha2, ht⟩ := noMeta_cons a t h
    intro s
    cases s with
    | nil =>
      rw [List.cons_append, likeM_cons_nil, if_neg ha1, List.map_cons,
        List.map_nil]
      rfl
    | cons c s2 =>
      rw [List.cons_append, likeM_cons_cons, if_neg ha1, if_neg ha2,
        ih ht s2, List.map_cons, List.map_cons]
      rfl

lemma likeM_pattern_occurs (t : List Char) (h : noMeta t = true) :
    ∀ s : List Char,
      likeM ('%' :: (t ++ ['%'])) s = litOccurs (t.map lcChar) (s.map lcChar) := by
  intro s
  induction s with
  | nil =>
    rw [likeM_cons_nil, if_pos rfl, likeM_append_pct t h [], List.map_nil,
      leadMatch_nil]
    rfl
  | cons c s2 ih =>
    rw [likeM_cons_cons, if_pos rfl, likeM_append_pct t h (c :: s2), ih,
      List.map_cons]
    rfl

def exEmail6 : Email :=
  { id := 1, remetente := "s", destinatario := "r", assunto := "abc", corpo := "",
    categoria_id := none, data_envio := 1, lido := false, importante := false,
    arquivado := false }

def exDB6 : DBState :=
  { usuarios := [], categorias := [], emails := [exEmail6],
    nextUserId := 1, nextCatId := 1, nextEmailId := 2 }

/-- Counterexample for C6: searching for the text "_" returns an email even
though "_" does not occur as a literal substring of its subject or body —
the text is embedded unescaped into the LIKE pattern, where `_` is a
one-character wildcard. -/
theorem busca_texto_metachar_cex :
    buscar_emails_por_texto exDB6 "_" 20 = [(exEmail6, none)] ∧
    litOccurs "_".data exEmail6.assunto.data = false ∧
    litOccurs "_".data exEmail6.corpo.data = false := by
  refine ⟨rfl, rfl, rfl⟩

/-- C6 as amended: because the caller's text is embedded unescaped in a
`%…%` LIKE pattern, exact-substring semantics only hold for metacharacter-free
text, and matching is ASCII-case-insensitive (SQLite's default LIKE): when
`texto` contains no '%' and no '_', and the limit covers the whole table,
SearchEmails returns exactly the emails in which `texto` occurs as a
substring of the subject or of the body up to ASCII case.  Text containing
'%' or '_' is interpreted as wildcards instead. -/
theorem busca_texto_semantics (db : DBState) (texto : String) (lim : Nat)
    (row : Email × Option String)
    (hmeta : noMeta texto.data = true) (hlim : db.emails.length ≤ lim) :
    row ∈ buscar_emails_por_texto db texto lim ↔
      ∃ e, e ∈ db.emails ∧ row = joinRow db e ∧
        (litOccurs (texto.data.map lcChar) (e.assunto.data.map lcChar) = true ∨
         litOccurs (texto.data.map lcChar) (e.corpo.data.map lcChar) = true) := by
  unfold buscar_emails_por_texto
  rw [List.take_of_length_le
    (by rw [length_sortByTsDesc]; exact le_trans (List.length_filter_le _ _) hlim)]
  simp only [List.mem_map]
  have hlike : ∀ e : Email,
      (likeM (likePattern texto) e.assunto.data ||
        likeM (likePattern texto) e.corpo.data) = true ↔
      (litOccurs (texto.data.map lcChar) (e.assunto.data.map lcChar) = true ∨
       litOccurs (texto.data.map lcChar) (e.corpo.data.map lcChar) = true) := by
    intro e
    rw [Bool.or_eq_true]
    rw [show likePattern texto = '%' :: (texto.data ++ ['%']) from rfl]
    rw [likeM_pattern_occurs texto.data hmeta e.assunto.data,
      likeM_pattern_occurs texto.data hmeta e.corpo.data]
  constructor
  · rintro ⟨e, he, rfl⟩
    rw [mem_sortByTsDesc] at he
    obtain ⟨hmem, hp⟩ := List.mem_filter.mp he
    exact ⟨e, hmem, rfl, (hlike e).mp hp⟩
  · rintro ⟨e, hmem, rfl, hocc⟩
    exact ⟨e, (mem_sortByTsDesc e _).mpr
      (List.mem_filter.mpr ⟨hmem, (hlike e).mpr hocc⟩), rfl⟩

def exEmailHello : Email :=
  { id := 1, remetente := "s", destinatario := "r", assunto := "Hello", corpo := "",
    categoria_id := none, data_envio := 1, lido := false, importante := false,
    arquivado := false }

def exDB6w : DBState :=
  { usuarios := [], categorias := [], emails := [exEmailHello],
    nextUserId := 1, nextCatId := 1, nextEmailId := 2 }

/-- Witness for the amended C6: searching for the metacharacter-free text
"ell" returns the email whose subject "Hello" contains it (up to ASCII
case). -/
theorem busca_texto_semantics_witness :
    (exEmailHello, (none : Option String)) ∈ buscar_emails_por_texto exDB6w "ell" 20 :=
  (busca_texto_semantics exDB6w "ell" 20 (exEmailHello, none) (by decide)
      (by decide)).mpr
    ⟨exEmailHello, by decide, rfl, Or.inl (by decide)⟩
